import Mathlib

/-!
Verification of the orbital probability model and Monte Carlo point-cloud
sampler of the wgpuProject repository.

The Rust source is shallowly embedded: `f32` arithmetic is modelled over `ℝ`,
machine integers (`u8`, `i8`, `usize`) over `ℕ`/`ℤ`, `glam::Vec3` as a record
of three reals, and the mutable ChaCha8 pseudo-random generator as an explicit
state of an abstract type `σ` threaded through every drawing operation via a
`RandomSource` record (each draw is a pure function from state to value and
next state, mirroring the fact that `rand_chacha::ChaCha8Rng` is a
deterministic generator seeded from a `u64`).
-/

namespace Wgpu

noncomputable section

/-- Model of `glam::Vec3` (three `f32` components, modelled as reals). -/
structure Vec3 where
  x : ℝ
  y : ℝ
  z : ℝ

namespace Vec3

/-- `Vec3::length_squared`. -/
def lengthSq (v : Vec3) : ℝ := v.x * v.x + v.y * v.y + v.z * v.z

/-- `Vec3::length`. -/
def length (v : Vec3) : ℝ := Real.sqrt v.lengthSq

/-- Scalar multiplication `v * r` on `glam::Vec3`. -/
def smul (r : ℝ) (v : Vec3) : Vec3 := ⟨r * v.x, r * v.y, r * v.z⟩

/-- `Vec3::splat`. -/
def splat (r : ℝ) : Vec3 := ⟨r, r, r⟩

/-- `Vec3::ZERO`. -/
def zero : Vec3 := ⟨0, 0, 0⟩

end Vec3

/-- Model of `Element` from `src/physics/elements.rs`.  `atomic_number` and
`default_neutrons` are `u8` in the source, modelled as `ℕ`. -/
structure Element where
  atomic_number : ℕ
  symbol : String
  name : String
  standard_atomic_weight : ℝ
  default_neutrons : ℕ

namespace Element

/-- `Element::new`. -/
def new (atomic_number : ℕ) (symbol name : String)
    (standard_atomic_weight : ℝ) (default_neutrons : ℕ) : Element :=
  ⟨atomic_number, symbol, name, standard_atomic_weight, default_neutrons⟩

/-- `Element::hydrogen`. -/
def hydrogen : Element := new 1 "H" "Hydrogen" 1.008 0

/-- `Element::helium`. -/
def helium : Element := new 2 "He" "Helium" 4.0026 2

end Element

/-- The static catalog `ELEMENTS` from `src/physics/elements.rs`. -/
def ELEMENTS : List Element :=
  [Element.new 1 "H" "Hydrogen" 1.008 0,
   Element.new 2 "He" "Helium" 4.0026 2]

/-- `Element::by_atomic_number`: first catalog entry with the given atomic
number, if any. -/
def Element.by_atomic_number (z : ℕ) : Option Element :=
  ELEMENTS.find? (fun element => element.atomic_number == z)

/-- `Element::all`. -/
def Element.all : List Element := ELEMENTS

/-- `Element::default_neutron_count`. -/
def Element.default_neutron_count (e : Element) : ℕ := e.default_neutrons

/-- Model of `Orbital` from `src/physics/electron.rs`.
`n`, `l` are `u8` (ℕ here); `m` is `i8` (ℤ here). -/
structure Orbital where
  n : ℕ
  l : ℕ
  m : ℤ
deriving DecidableEq

/-- The quantum-number contract asserted by the `debug_assert!`s in
`Orbital::new`: `n ≥ 1`, `l < n`, `|m| ≤ l`. -/
def Orbital.Valid (o : Orbital) : Prop :=
  1 ≤ o.n ∧ o.l < o.n ∧ o.m.natAbs ≤ o.l

instance (o : Orbital) : Decidable o.Valid := by
  unfold Orbital.Valid; infer_instance

/-- `Orbital::new` as compiled in debug builds: the three `debug_assert!`s
are fatal, so a triple violating the contract never produces a value
(modelled as `none`); a triple satisfying it is stored verbatim. -/
def Orbital.new_debug (n l : ℕ) (m : ℤ) : Option Orbital :=
  if 1 ≤ n ∧ l < n ∧ m.natAbs ≤ l then some ⟨n, l, m⟩ else none

/-- `Orbital::new` as compiled in release builds: `debug_assert!` compiles
to nothing, so the triple is stored verbatim with no check and no
normalization. -/
def Orbital.new_release (n l : ℕ) (m : ℤ) : Orbital := ⟨n, l, m⟩

/-- `Orbital::ground_state`. -/
def Orbital.ground_state : Orbital := ⟨1, 0, 0⟩

/-- The constant `A0` (Bohr radius in Angstroms) from
`effective_bohr_radius` in `src/physics/electron.rs`. -/
def A0 : ℝ := 0.52917721067

/-- `effective_bohr_radius`: `A0 / z.max(1.0)` with `z` the atomic number
cast to float. -/
def effective_bohr_radius (element : Element) : ℝ :=
  A0 / max (element.atomic_number : ℝ) 1

/-- `radial_gaussian` from `src/physics/electron.rs`:
`norm * exp(-0.5 * r2 / sigma2)` with
`norm = 1 / ((2π)^1.5 * sigma^3)`. -/
def radial_gaussian (position : Vec3) (sigma : ℝ) : ℝ :=
  let r2 := position.lengthSq
  let sigma2 := sigma * sigma
  let norm := 1 / ((2 * Real.pi) ^ (1.5 : ℝ) * sigma ^ 3)
  norm * Real.exp (-0.5 * r2 / sigma2)

/-- `Orbital::bounding_radius`: `4a` for `n = 1`, `8a` for `n = 2`,
else `n² · 4a`. -/
def Orbital.bounding_radius (o : Orbital) (element : Element) : ℝ :=
  let a := effective_bohr_radius element
  if o.n = 1 then 4 * a
  else if o.n = 2 then 8 * a
  else (o.n : ℝ) ^ 2 * 4 * a

/-- `Orbital::max_density`: matches on `(n, l)` only;
`1/(πa³)` for `(1,0)`, `1/(32πa³)` for `(2,0)`, else `1.0`. -/
def Orbital.max_density (o : Orbital) (element : Element) : ℝ :=
  let a := effective_bohr_radius element
  if o.n = 1 ∧ o.l = 0 then 1 / (Real.pi * a ^ 3)
  else if o.n = 2 ∧ o.l = 0 then 1 / (32 * Real.pi * a ^ 3)
  else 1

/-- `Orbital::probability_density`: matches on `(n, l, m)`;
closed 1s and 2s forms, Gaussian fallback otherwise. -/
def Orbital.probability_density (o : Orbital) (element : Element)
    (position : Vec3) : ℝ :=
  let r := position.length
  let a := effective_bohr_radius element
  if o.n = 1 ∧ o.l = 0 ∧ o.m = 0 then
    (1 / (Real.pi * a ^ 3)) * Real.exp (-2 * r / a)
  else if o.n = 2 ∧ o.l = 0 ∧ o.m = 0 then
    (1 / (32 * Real.pi * a ^ 3)) * Real.exp (-r / a) * (2 - r / a) ^ 2
  else
    radial_gaussian position (o.bounding_radius element / 3)

/-- Output record `CloudSample` from `src/simulation/solver.rs`. -/
structure CloudSample where
  position : Vec3
  weight : ℝ

/-- `SampleConfig` (field `samples : usize`). -/
structure SampleConfig where
  samples : ℕ

/-- `SampleConfig::new`. -/
def SampleConfig.new (samples : ℕ) : SampleConfig := ⟨samples⟩

/-- Abstract model of the seeded pseudo-random generator
(`ChaCha8Rng` plus the distributions drawn from it).  A state of type `σ`
stands for the generator's internal state; every draw is a pure function
returning the drawn value and the advanced state.
`gamma_sample shape scale` models `Gamma::new(shape, scale)` followed by
`.sample(&mut rng)`; `gen_range lo hi` models `rng.gen_range(lo..=hi)`
(and the half-open variants used in `random_unit_vector`). -/
structure RandomSource (σ : Type) where
  seed_from : ℕ → σ
  gamma_sample : ℝ → ℝ → σ → ℝ × σ
  gen_range : ℝ → ℝ → σ → ℝ × σ

/-- A random source is in-range when `gen_range lo hi` draws inside
`[lo, hi]`, as the `rand` crate guarantees for a nonempty range. -/
def RandomSource.InRange {σ : Type} (rs : RandomSource σ) : Prop :=
  ∀ lo hi : ℝ, ∀ s : σ, lo ≤ hi →
    lo ≤ (rs.gen_range lo hi s).1 ∧ (rs.gen_range lo hi s).1 ≤ hi

/-- `MonteCarloSampler::with_seed`: the sampler state is just the seeded
generator state. -/
def MonteCarloSampler.with_seed {σ : Type} (rs : RandomSource σ) (seed : ℕ) : σ :=
  rs.seed_from seed

/-- `MonteCarloSampler::new` (fixed default seed 42). -/
def MonteCarloSampler.new {σ : Type} (rs : RandomSource σ) : σ :=
  MonteCarloSampler.with_seed rs 42

/-- `random_unit_vector` from `src/simulation/solver.rs`:
`z ~ gen_range(-1, 1)`, `azimuth ~ gen_range(0, TAU)`,
`radial = sqrt(max(1 - z², 0))`. -/
def random_unit_vector {σ : Type} (rs : RandomSource σ) (s : σ) : Vec3 × σ :=
  let zd := rs.gen_range (-1) 1 s
  let az := rs.gen_range 0 (2 * Real.pi) zd.2
  let radial := Real.sqrt (max (1 - zd.1 * zd.1) 0)
  (⟨radial * Real.cos az.1, radial * Real.sin az.1, zd.1⟩, az.2)

/-- `BoundingBox` from `src/simulation/solver.rs`. -/
structure BoundingBox where
  min : Vec3
  max : Vec3

/-- `BoundingBox::cube` (half-width `radius.abs()`). -/
def BoundingBox.cube (radius : ℝ) : BoundingBox :=
  let half := |radius|
  ⟨Vec3.splat (-half), Vec3.splat half⟩

/-- `BoundingBox::random_point`: one `gen_range` per axis, x then y then z. -/
def BoundingBox.random_point {σ : Type} (b : BoundingBox) (rs : RandomSource σ)
    (s : σ) : Vec3 × σ :=
  let xd := rs.gen_range b.min.x b.max.x s
  let yd := rs.gen_range b.min.y b.max.y xd.2
  let zd := rs.gen_range b.min.z b.max.z yd.2
  (⟨xd.1, yd.1, zd.1⟩, zd.2)

/-- `BoundingBox::scaled`: both corners multiplied by the factor. -/
def BoundingBox.scaled (b : BoundingBox) (factor : ℝ) : BoundingBox :=
  ⟨Vec3.smul factor b.min, Vec3.smul factor b.max⟩

/-- The `for _ in 0..config.samples` loop of
`MonteCarloSampler::try_sample_ground_s_orbital`: one gamma radius and one
unit direction per sample, weight `sqrt(clamp(density/max_density, 0, 1))`. -/
def ground_s_samples {σ : Type} (rs : RandomSource σ) (element : Element)
    (orbital : Orbital) (scale max_density : ℝ) :
    ℕ → σ → List CloudSample × σ
  | 0, s => ([], s)
  | k + 1, s =>
    let rd := rs.gamma_sample 3 scale s
    let dir := random_unit_vector rs rd.2
    let position := Vec3.smul rd.1 dir.1
    let density := orbital.probability_density element position
    let weight := Real.sqrt (min (max (density / max_density) 0) 1)
    let rest := ground_s_samples rs element orbital scale max_density k dir.2
    (⟨position, weight⟩ :: rest.1, rest.2)

/-- `MonteCarloSampler::try_sample_ground_s_orbital`.  Returns `none` unless
`(n, l, m) = (1, 0, 0)` and the gamma scale `effective_bohr_radius / 2` is
finite and positive (over `ℝ` finiteness always holds, so only positivity is
modelled); `Gamma::new(3, scale)` cannot fail once `scale > 0`, so the
`.ok()?` fallback adds no further case. -/
def try_sample_ground_s_orbital {σ : Type} (rs : RandomSource σ) (s : σ)
    (element : Element) (orbital : Orbital) (config : SampleConfig) :
    Option (List CloudSample × σ) :=
  if ¬(orbital.n = 1 ∧ orbital.l = 0 ∧ orbital.m = 0) then none
  else
    let scale := effective_bohr_radius element / 2
    if scale ≤ 0 then none
    else
      let md := max (orbital.max_density element) 1e-6
      some (ground_s_samples rs element orbital scale md config.samples s)

/-- Attempts-per-round cap: `config.samples.saturating_mul(50).max(10_000)`
(over `ℕ` the saturating multiplication is plain multiplication). -/
def max_attempts_for (samples : ℕ) : ℕ := max (samples * 50) 10000

/-- The inner `while accepted.len() < samples && attempts < max_attempts`
loop of `sample_orbital_rejection`, recursing on the remaining attempt
budget.  Accepts a candidate when the threshold drawn in `[0, max_density]`
is at most the candidate's density. -/
def rejection_attempts {σ : Type} (rs : RandomSource σ) (element : Element)
    (orbital : Orbital) (max_density : ℝ) (bounds : BoundingBox) (quota : ℕ) :
    ℕ → σ → List CloudSample → List CloudSample × σ
  | 0, s, acc => (acc, s)
  | fuel + 1, s, acc =>
    if quota ≤ acc.length then (acc, s)
    else
      let cand := bounds.random_point rs s
      let density := orbital.probability_density element cand.1
      let thr := rs.gen_range 0 max_density cand.2
      if thr.1 ≤ density then
        let weight := min (max (density / max_density) 0) 1
        rejection_attempts rs element orbital max_density bounds quota fuel
          thr.2 (acc ++ [⟨cand.1, Real.sqrt weight⟩])
      else
        rejection_attempts rs element orbital max_density bounds quota fuel
          thr.2 acc

/-- The outer `while accepted.len() < samples && expansions <= 4` loop of
`sample_orbital_rejection`, recursing on the number of remaining rounds
(the guard `expansions <= 4` admits five rounds).  After a failed round the
box is scaled by 1.5 — also after the final round, matching the source,
where the last `bounds = bounds.scaled(1.5)` runs just before the loop
condition fails. -/
def expansion_loop {σ : Type} (rs : RandomSource σ) (element : Element)
    (orbital : Orbital) (max_density : ℝ) (quota : ℕ) :
    ℕ → BoundingBox → σ → List CloudSample →
    List CloudSample × BoundingBox × σ
  | 0, bounds, s, acc => (acc, bounds, s)
  | rounds + 1, bounds, s, acc =>
    if quota ≤ acc.length then (acc, bounds, s)
    else
      let step := rejection_attempts rs element orbital max_density bounds
        quota (max_attempts_for quota) s acc
      if step.1.length < quota then
        expansion_loop rs element orbital max_density quota rounds
          (bounds.scaled 1.5) step.2 step.1
      else (step.1, bounds, step.2)

/-- The shortfall filler of `sample_orbital_rejection`: random positions in
the final box, weight exactly 0. -/
def fill_random {σ : Type} (rs : RandomSource σ) (bounds : BoundingBox) :
    ℕ → σ → List CloudSample × σ
  | 0, s => ([], s)
  | k + 1, s =>
    let cand := bounds.random_point rs s
    let rest := fill_random rs bounds k cand.2
    (⟨cand.1, 0⟩ :: rest.1, rest.2)

/-- `MonteCarloSampler::sample_orbital_rejection`. -/
def sample_orbital_rejection {σ : Type} (rs : RandomSource σ) (s : σ)
    (element : Element) (orbital : Orbital) (config : SampleConfig) :
    List CloudSample × σ :=
  let radius := orbital.bounding_radius element
  let bounds := BoundingBox.cube radius
  let md := max (orbital.max_density element) 1e-6
  let run := expansion_loop rs element orbital md config.samples 5 bounds s []
  if run.1.length < config.samples then
    let filler := fill_random rs run.2.1 (config.samples - run.1.length) run.2.2
    (run.1 ++ filler.1, filler.2)
  else (run.1, run.2.2)

/-- `MonteCarloSampler::sample_orbital`: empty result for zero samples,
otherwise the ground-state fast path when available, else rejection. -/
def sample_orbital {σ : Type} (rs : RandomSource σ) (s : σ)
    (element : Element) (orbital : Orbital) (config : SampleConfig) :
    List CloudSample × σ :=
  if config.samples = 0 then ([], s)
  else
    match try_sample_ground_s_orbital rs s element orbital config with
    | some result => result
    | none => sample_orbital_rejection rs s element orbital config

/-- `Electron` from `src/physics/electron.rs`. -/
structure Electron where
  orbital : Orbital

/-- `Electron::new`. -/
def Electron.new (orbital : Orbital) : Electron := ⟨orbital⟩

/-- `Proton` (position only; masses and charges are constants). -/
structure Proton where
  position : Vec3

/-- `Neutron`. -/
structure Neutron where
  position : Vec3

/-- `Nucleus` from `src/physics/nucleus.rs`. -/
structure Nucleus where
  protons : List Proton
  neutrons : List Neutron

/-- `nuclear_radius`: `(1.2 * A^(1/3)) * 0.01`. -/
def nuclear_radius (mass_number : ℝ) : ℝ :=
  (1.2 * mass_number ^ ((1 : ℝ) / 3)) * 0.01

/-- `fibonacci_sphere` from `src/physics/nucleus.rs`. -/
def fibonacci_sphere (count : ℕ) (radius : ℝ) : List Vec3 :=
  if count = 0 then []
  else if count = 1 then [Vec3.zero]
  else
    let golden_angle := Real.pi * (3 - Real.sqrt 5)
    (List.range count).map (fun i =>
      let y := 1 - 2 * ((i : ℝ) + 0.5) / (count : ℝ)
      let radius_xy := Real.sqrt (max (1 - y * y) 0)
      let theta := golden_angle * (i : ℝ)
      Vec3.smul radius ⟨radius_xy * Real.cos theta, y, radius_xy * Real.sin theta⟩)

/-- `NucleusBuilder::build`. -/
def NucleusBuilder.build (proton_count neutron_count : ℕ) : Nucleus :=
  let total := max (proton_count + neutron_count) 1
  let base_radius := nuclear_radius (total : ℝ)
  let protons := (fibonacci_sphere proton_count (base_radius * 0.6)).map Proton.mk
  let neutrons := (fibonacci_sphere neutron_count base_radius).map Neutron.mk
  ⟨protons, neutrons⟩

/-- `Atom` from `src/simulation/atom.rs`. -/
structure Atom where
  element : Element
  nucleus : Nucleus
  electrons : List Electron
  active_orbital : Orbital

/-- `Atom::new`: ground-state orbital, one electron per atomic number, a
nucleus built from the element's proton and default neutron counts. -/
def Atom.new (element : Element) : Atom :=
  let active_orbital := Orbital.ground_state
  let electrons := (List.range element.atomic_number).map
    (fun _ => Electron.new active_orbital)
  let nucleus := NucleusBuilder.build element.atomic_number
    element.default_neutron_count
  ⟨element, nucleus, electrons, active_orbital⟩

/-- `Atom::set_active_orbital`: replaces the active orbital and overwrites
every electron with a fresh electron on the given orbital. -/
def Atom.set_active_orbital (atom : Atom) (orbital : Orbital) : Atom :=
  { atom with
    active_orbital := orbital
    electrons := atom.electrons.map (fun _ => Electron.new orbital) }

/-- The 1s density named by the spec: `(1/(πa³)) · exp(-2r/a)`. -/
def spec_1s_density (a r : ℝ) : ℝ :=
  1 / (Real.pi * a ^ 3) * Real.exp (-2 * r / a)

/-- The 2s density named by the spec:
`(1/(32πa³)) · exp(-r/a) · (2 - r/a)²`. -/
def spec_2s_density (a r : ℝ) : ℝ :=
  1 / (32 * Real.pi * a ^ 3) * Real.exp (-r / a) * (2 - r / a) ^ 2

/-- The radially symmetric Gaussian density of standard deviation `sigma`
centered at the origin named by the spec, in its standard normalized form
`(2πσ²)^(-3/2) · exp(-|v|²/(2σ²))`. -/
def spec_gaussian_density (sigma : ℝ) (v : Vec3) : ℝ :=
  (2 * Real.pi * sigma ^ 2) ^ (-(3 : ℝ) / 2) *
    Real.exp (-v.lengthSq / (2 * sigma ^ 2))

/-- A concrete in-range random source used to instantiate the sampler on
concrete inputs: every range draw returns the midpoint, every gamma draw
returns the scale parameter. -/
def midSource : RandomSource Unit where
  seed_from := fun _ => ()
  gamma_sample := fun _ scale s => (scale, s)
  gen_range := fun lo hi s => ((lo + hi) / 2, s)

instance : Inhabited CloudSample := ⟨⟨⟨0, 0, 0⟩, 0⟩⟩

end

/-! ### Helper lemmas -/

lemma midSource_in_range : midSource.InRange := by
  intro lo hi s h
  constructor <;> simp only [midSource] <;> linarith

lemma Vec3.smul_one (v : Vec3) : Vec3.smul 1 v = v := by
  cases v; simp [Vec3.smul]

lemma Vec3.smul_smul (x y : ℝ) (v : Vec3) :
    Vec3.smul y (Vec3.smul x v) = Vec3.smul (x * y) v := by
  cases v
  simp only [Vec3.smul, Vec3.mk.injEq]
  refine ⟨by ring, by ring, by ring⟩

lemma BoundingBox.scaled_one (b : BoundingBox) : b.scaled 1 = b := by
  cases b
  simp [BoundingBox.scaled, Vec3.smul_one]

lemma BoundingBox.scaled_scaled (b : BoundingBox) (x y : ℝ) :
    (b.scaled x).scaled y = b.scaled (x * y) := by
  cases b
  simp [BoundingBox.scaled, Vec3.smul_smul]

lemma sqrt_clamp01 (y : ℝ) :
    0 ≤ Real.sqrt (min (max y 0) 1) ∧ Real.sqrt (min (max y 0) 1) ≤ 1 := by
  refine ⟨Real.sqrt_nonneg _, ?_⟩
  have h := Real.sqrt_le_sqrt (min_le_right (max y 0) 1)
  rw [Real.sqrt_one] at h
  exact h

lemma ground_s_samples_length {σ : Type} (rs : RandomSource σ) (e : Element)
    (o : Orbital) (scale md : ℝ) :
    ∀ (k : ℕ) (s : σ), ((ground_s_samples rs e o scale md k s).1).length = k := by
  intro k
  induction k with
  | zero => intro s; rfl
  | succ k ih => intro s; simp [ground_s_samples, ih]

lemma ground_s_samples_weights {σ : Type} (rs : RandomSource σ) (e : Element)
    (o : Orbital) (scale md : ℝ) :
    ∀ (k : ℕ) (s : σ), ∀ x ∈ (ground_s_samples rs e o scale md k s).1,
      0 ≤ x.weight ∧ x.weight ≤ 1 := by
  intro k
  induction k with
  | zero => intro s x hx; cases hx
  | succ k ih =>
    intro s x hx
    simp only [ground_s_samples, List.mem_cons] at hx
    rcases hx with hx | hx
    · subst hx; exact sqrt_clamp01 _
    · exact ih _ x hx

lemma try_sample_ground_length {σ : Type} (rs : RandomSource σ) (s : σ)
    (e : Element) (o : Orbital) (c : SampleConfig)
    (res : List CloudSample × σ)
    (h : try_sample_ground_s_orbital rs s e o c = some res) :
    res.1.length = c.samples := by
  unfold try_sample_ground_s_orbital at h
  split at h
  · cases h
  · dsimp only at h
    split at h
    · cases h
    · injection h with h'
      rw [← h']
      exact ground_s_samples_length rs e o _ _ c.samples s

lemma try_sample_ground_weights {σ : Type} (rs : RandomSource σ) (s : σ)
    (e : Element) (o : Orbital) (c : SampleConfig)
    (res : List CloudSample × σ)
    (h : try_sample_ground_s_orbital rs s e o c = some res) :
    ∀ x ∈ res.1, 0 ≤ x.weight ∧ x.weight ≤ 1 := by
  unfold try_sample_ground_s_orbital at h
  split at h
  · cases h
  · dsimp only at h
    split at h
    · cases h
    · injection h with h'
      rw [← h']
      exact ground_s_samples_weights rs e o _ _ c.samples s

lemma rejection_attempts_length_le {σ : Type} (rs : RandomSource σ)
    (e : Element) (o : Orbital) (md : ℝ) (b : BoundingBox) (quota : ℕ) :
    ∀ (fuel : ℕ) (s : σ) (acc : List CloudSample), acc.length ≤ quota →
      ((rejection_attempts rs e o md b quota fuel s acc).1).length ≤ quota := by
  intro fuel
  induction fuel with
  | zero => intro s acc h; exact h
  | succ fuel ih =>
    intro s acc h
    simp only [rejection_attempts]
    split
    · exact h
    · rename_i hlt
      split
      · apply ih
        simp only [List.length_append, List.length_cons, List.length_nil]
        omega
      · exact ih _ _ h

lemma rejection_attempts_weights {σ : Type} (rs : RandomSource σ)
    (e : Element) (o : Orbital) (md : ℝ) (b : BoundingBox) (quota : ℕ) :
    ∀ (fuel : ℕ) (s : σ) (acc : List CloudSample),
      (∀ x ∈ acc, 0 ≤ x.weight ∧ x.weight ≤ 1) →
      ∀ x ∈ (rejection_attempts rs e o md b quota fuel s acc).1,
        0 ≤ x.weight ∧ x.weight ≤ 1 := by
  intro fuel
  induction fuel with
  | zero => intro s acc h; exact h
  | succ fuel ih =>
    intro s acc h
    simp only [rejection_attempts]
    split
    · exact h
    · split
      · apply ih
        intro x hx
        rcases List.mem_append.mp hx with hx | hx
        · exact h x hx
        · rcases List.mem_singleton.mp hx with rfl
          exact sqrt_clamp01 _
      · exact ih _ _ h

lemma expansion_loop_length_le {σ : Type} (rs : RandomSource σ)
    (e : Element) (o : Orbital) (md : ℝ) (quota : ℕ) :
    ∀ (rounds : ℕ) (b : BoundingBox) (s : σ) (acc : List CloudSample),
      acc.length ≤ quota →
      ((expansion_loop rs e o md quota rounds b s acc).1).length ≤ quota := by
  intro rounds
  induction rounds with
  | zero => intro b s acc h; exact h
  | succ rounds ih =>
    intro b s acc h
    simp only [expansion_loop]
    split
    · exact h
    · rename_i hlt
      have hstep := rejection_attempts_length_le rs e o md b quota
        (max_attempts_for quota) s acc (by omega)
      split
      · exact ih _ _ _ hstep
      · exact hstep

lemma expansion_loop_weights {σ : Type} (rs : RandomSource σ)
    (e : Element) (o : Orbital) (md : ℝ) (quota : ℕ) :
    ∀ (rounds : ℕ) (b : BoundingBox) (s : σ) (acc : List CloudSample),
      (∀ x ∈ acc, 0 ≤ x.weight ∧ x.weight ≤ 1) →
      ∀ x ∈ (expansion_loop rs e o md quota rounds b s acc).1,
        0 ≤ x.weight ∧ x.weight ≤ 1 := by
  intro rounds
  induction rounds with
  | zero => intro b s acc h; exact h
  | succ rounds ih =>
    intro b s acc h
    simp only [expansion_loop]
    split
    · exact h
    · have hstep := rejection_attempts_weights rs e o md b quota
        (max_attempts_for quota) s acc h
      split
      · exact ih _ _ _ hstep
      · exact hstep

lemma expansion_loop_box {σ : Type} (rs : RandomSource σ)
    (e : Element) (o : Orbital) (md : ℝ) (quota : ℕ) :
    ∀ (rounds : ℕ) (b : BoundingBox) (s : σ) (acc : List CloudSample),
      ∃ j : ℕ, j ≤ rounds ∧
        (expansion_loop rs e o md quota rounds b s acc).2.1 =
          b.scaled (1.5 ^ j) := by
  intro rounds
  induction rounds with
  | zero =>
    intro b s acc
    exact ⟨0, le_rfl, by rw [pow_zero]; exact (BoundingBox.scaled_one b).symm⟩
  | succ rounds ih =>
    intro b s acc
    simp only [expansion_loop]
    split
    · exact ⟨0, by omega, by rw [pow_zero]; exact (BoundingBox.scaled_one b).symm⟩
    · split
      · obtain ⟨j, hj, hEq⟩ := ih (b.scaled 1.5) _ _
        refine ⟨j + 1, by omega, ?_⟩
        rw [hEq, BoundingBox.scaled_scaled, ← pow_succ']
      · exact ⟨0, by omega, by rw [pow_zero]; exact (BoundingBox.scaled_one b).symm⟩

lemma expansion_loop_shortfall {σ : Type} (rs : RandomSource σ)
    (e : Element) (o : Orbital) (md : ℝ) (quota : ℕ) :
    ∀ (rounds : ℕ) (b : BoundingBox) (s : σ) (acc : List CloudSample),
      ((expansion_loop rs e o md quota rounds b s acc).1).length < quota →
      (expansion_loop rs e o md quota rounds b s acc).2.1 =
        b.scaled (1.5 ^ rounds) := by
  intro rounds
  induction rounds with
  | zero =>
    intro b s acc _
    rw [pow_zero]
    exact (BoundingBox.scaled_one b).symm
  | succ rounds ih =>
    intro b s acc hshort
    simp only [expansion_loop] at hshort ⊢
    by_cases hge : quota ≤ acc.length
    · rw [if_pos hge] at hshort ⊢
      dsimp only at hshort
      exact absurd hshort (by omega)
    · rw [if_neg hge] at hshort ⊢
      by_cases hlt : (rejection_attempts rs e o md b quota
          (max_attempts_for quota) s acc).1.length < quota
      · rw [if_pos hlt] at hshort ⊢
        rw [ih _ _ _ hshort, BoundingBox.scaled_scaled, ← pow_succ']
      · rw [if_neg hlt] at hshort ⊢
        dsimp only at hshort
        exact absurd hshort (by omega)

lemma fill_random_length {σ : Type} (rs : RandomSource σ) (b : BoundingBox) :
    ∀ (k : ℕ) (s : σ), ((fill_random rs b k s).1).length = k := by
  intro k
  induction k with
  | zero => intro s; rfl
  | succ k ih => intro s; simp [fill_random, ih]

lemma fill_random_weight_zero {σ : Type} (rs : RandomSource σ)
    (b : BoundingBox) :
    ∀ (k : ℕ) (s : σ), ∀ x ∈ (fill_random rs b k s).1, x.weight = 0 := by
  intro k
  induction k with
  | zero => intro s x hx; cases hx
  | succ k ih =>
    intro s x hx
    simp only [fill_random, List.mem_cons] at hx
    rcases hx with hx | hx
    · subst hx; rfl
    · exact ih _ x hx

lemma sample_orbital_rejection_length {σ : Type} (rs : RandomSource σ)
    (s : σ) (e : Element) (o : Orbital) (c : SampleConfig) :
    ((sample_orbital_rejection rs s e o c).1).length = c.samples := by
  unfold sample_orbital_rejection
  have hle := expansion_loop_length_le rs e o
    (max (o.max_density e) 1e-6) c.samples 5
    (BoundingBox.cube (o.bounding_radius e)) s [] (by simp)
  simp only
  split
  · rename_i hlt
    simp only [List.length_append, fill_random_length]
    omega
  · rename_i hge
    dsimp only
    omega

lemma sample_orbital_rejection_weights {σ : Type} (rs : RandomSource σ)
    (s : σ) (e : Element) (o : Orbital) (c : SampleConfig) :
    ∀ x ∈ (sample_orbital_rejection rs s e o c).1,
      0 ≤ x.weight ∧ x.weight ≤ 1 := by
  unfold sample_orbital_rejection
  have hw := expansion_loop_weights rs e o
    (max (o.max_density e) 1e-6) c.samples 5
    (BoundingBox.cube (o.bounding_radius e)) s [] (by intro x hx; cases hx)
  simp only
  split
  · intro x hx
    rcases List.mem_append.mp hx with hx | hx
    · exact hw x hx
    · have := fill_random_weight_zero rs _ _ _ x hx
      rw [this]
      exact ⟨le_rfl, by norm_num⟩
  · exact hw

lemma sample_orbital_length {σ : Type} (rs : RandomSource σ) (s : σ)
    (e : Element) (o : Orbital) (c : SampleConfig) :
    ((sample_orbital rs s e o c).1).length = c.samples := by
  unfold sample_orbital
  split
  · rename_i h0
    simp [h0]
  · cases htry : try_sample_ground_s_orbital rs s e o c with
    | none =>
      exact sample_orbital_rejection_length rs s e o c
    | some res =>
      exact try_sample_ground_length rs s e o c res htry

lemma sample_orbital_weights {σ : Type} (rs : RandomSource σ) (s : σ)
    (e : Element) (o : Orbital) (c : SampleConfig) :
    ∀ x ∈ (sample_orbital rs s e o c).1, 0 ≤ x.weight ∧ x.weight ≤ 1 := by
  unfold sample_orbital
  split
  · intro x hx; cases hx
  · cases htry : try_sample_ground_s_orbital rs s e o c with
    | none => exact sample_orbital_rejection_weights rs s e o c
    | some res => exact try_sample_ground_weights rs s e o c res htry

/-! ### C1: sample_orbital returns exactly sample_count samples -/

/-- C1: for every element, orbital and configuration, `sample_orbital`
returns exactly `samples` cloud samples, and the empty sequence when
`samples = 0`.  Totality of the embedded function models the absence of
panics: every range drawn by the source is nonempty and the gamma scale is
checked before `Gamma::new`. -/
theorem C1_sample_count {σ : Type} (rs : RandomSource σ) (s : σ)
    (element : Element) (orbital : Orbital) (config : SampleConfig) :
    ((sample_orbital rs s element orbital config).1).length = config.samples ∧
    (config.samples = 0 → (sample_orbital rs s element orbital config).1 = []) := by
  refine ⟨sample_orbital_length rs s element orbital config, ?_⟩
  intro h0
  unfold sample_orbital
  rw [if_pos h0]

/-- Witness for C1 at concrete inputs, including the zero-sample case. -/
theorem C1_witness :
    ((sample_orbital midSource () Element.hydrogen Orbital.ground_state
        (SampleConfig.new 3)).1).length = 3 ∧
    (sample_orbital midSource () Element.helium ⟨2, 1, 0⟩
        (SampleConfig.new 0)).1 = [] :=
  ⟨(C1_sample_count midSource () Element.hydrogen Orbital.ground_state
      (SampleConfig.new 3)).1,
   (C1_sample_count midSource () Element.helium ⟨2, 1, 0⟩
      (SampleConfig.new 0)).2 rfl⟩

/-! ### C6: all weights lie in the unit interval -/

/-- C6: every sample returned by `sample_orbital`, on either path, has a
weight in [0, 1], and shortfall filler samples have weight exactly 0. -/
theorem C6_weights {σ : Type} (rs : RandomSource σ) (s : σ)
    (element : Element) (orbital : Orbital) (config : SampleConfig) :
    (∀ x ∈ (sample_orbital rs s element orbital config).1,
      0 ≤ x.weight ∧ x.weight ≤ 1) ∧
    (∀ (bounds : BoundingBox) (k : ℕ) (t : σ),
      ∀ x ∈ (fill_random rs bounds k t).1, x.weight = 0) :=
  ⟨sample_orbital_weights rs s element orbital config,
   fun bounds k t => fill_random_weight_zero rs bounds k t⟩

/-- Witness for C6: the first sample of a concrete run has weight in
[0, 1], and a concrete filler sample has weight 0. -/
theorem C6_witness :
    (0 ≤ ((sample_orbital midSource () Element.hydrogen Orbital.ground_state
        (SampleConfig.new 1)).1.head!).weight ∧
      ((sample_orbital midSource () Element.hydrogen Orbital.ground_state
        (SampleConfig.new 1)).1.head!).weight ≤ 1) ∧
    ((fill_random midSource (BoundingBox.cube 1) 1 ()).1.head!).weight = 0 := by
  constructor
  · refine (C6_weights midSource () Element.hydrogen Orbital.ground_state
      (SampleConfig.new 1)).1 _ (List.head!_mem_self ?_)
    have h := sample_orbital_length midSource () Element.hydrogen
      Orbital.ground_state (SampleConfig.new 1)
    intro hnil
    rw [hnil] at h
    exact absurd h (by simp [SampleConfig.new])
  · refine (C6_weights midSource () Element.hydrogen Orbital.ground_state
      (SampleConfig.new 1)).2 (BoundingBox.cube 1) 1 () _
      (List.head!_mem_self ?_)
    have h := fill_random_length midSource (BoundingBox.cube 1) 1 ()
    intro hnil
    rw [hnil] at h
    exact absurd h (by simp)

/-! ### C5: rejection sampling structure -/

/-- C5: the attempts cap per round is `max(samples·50, 10000)`; after the
loop the box is the initial cube scaled by `1.5^j` for some `j ≤ 5` (the
source scales the box once more after the last round, so five scalings can
occur even though rejection resumes after at most four of them); a full
shortfall means the box was scaled the maximal number of times; the result
is the accepted points followed by zero-weight filler drawn inside the
final box, and its length is exactly `samples`. -/
theorem C5_rejection_policy {σ : Type} (rs : RandomSource σ) (s : σ)
    (element : Element) (orbital : Orbital) (config : SampleConfig)
    (acc : List CloudSample) (bounds : BoundingBox) (s2 : σ)
    (hrun : expansion_loop rs element orbital
        (max (orbital.max_density element) 1e-6) config.samples 5
        (BoundingBox.cube (orbital.bounding_radius element)) s [] =
      (acc, bounds, s2)) :
    max_attempts_for config.samples = max (config.samples * 50) 10000 ∧
    acc.length ≤ config.samples ∧
    (∃ j : ℕ, j ≤ 5 ∧ bounds =
      (BoundingBox.cube (orbital.bounding_radius element)).scaled (1.5 ^ j)) ∧
    (acc.length < config.samples → bounds =
      (BoundingBox.cube (orbital.bounding_radius element)).scaled (1.5 ^ 5)) ∧
    (sample_orbital_rejection rs s element orbital config).1 =
      acc ++ (fill_random rs bounds (config.samples - acc.length) s2).1 ∧
    (∀ x ∈ (fill_random rs bounds (config.samples - acc.length) s2).1,
      x.weight = 0) ∧
    ((sample_orbital_rejection rs s element orbital config).1).length =
      config.samples := by
  have hle := expansion_loop_length_le rs element orbital
    (max (orbital.max_density element) 1e-6) config.samples 5
    (BoundingBox.cube (orbital.bounding_radius element)) s [] (by simp)
  rw [hrun] at hle
  dsimp only at hle
  refine ⟨rfl, hle, ?_, ?_, ?_, ?_, ?_⟩
  · obtain ⟨j, hj, hEq⟩ := expansion_loop_box rs element orbital
      (max (orbital.max_density element) 1e-6) config.samples 5
      (BoundingBox.cube (orbital.bounding_radius element)) s []
    rw [hrun] at hEq
    exact ⟨j, hj, hEq⟩
  · intro hshort
    have h := expansion_loop_shortfall rs element orbital
      (max (orbital.max_density element) 1e-6) config.samples 5
      (BoundingBox.cube (orbital.bounding_radius element)) s []
      (by rw [hrun]; exact hshort)
    rw [hrun] at h
    exact h
  · unfold sample_orbital_rejection
    dsimp only
    rw [hrun]
    dsimp only
    split
    · rfl
    · rename_i hge
      have : config.samples - acc.length = 0 := by omega
      rw [this]
      simp [fill_random]
  · exact fill_random_weight_zero rs bounds _ s2
  · exact sample_orbital_rejection_length rs s element orbital config

/-- Witness for C5 at concrete inputs: the run components are the
projections of the loop itself, so the equation hypothesis holds
definitionally. -/
theorem C5_witness :
    ((sample_orbital_rejection midSource () Element.hydrogen ⟨2, 1, 0⟩
        (SampleConfig.new 7)).1).length = 7 ∧
    max_attempts_for 7 = max (7 * 50) 10000 := by
  have h := C5_rejection_policy midSource () Element.hydrogen ⟨2, 1, 0⟩
    (SampleConfig.new 7)
    (expansion_loop midSource Element.hydrogen ⟨2, 1, 0⟩
      (max (Orbital.max_density ⟨2, 1, 0⟩ Element.hydrogen) 1e-6) 7 5
      (BoundingBox.cube (Orbital.bounding_radius ⟨2, 1, 0⟩ Element.hydrogen))
      () []).1
    (expansion_loop midSource Element.hydrogen ⟨2, 1, 0⟩
      (max (Orbital.max_density ⟨2, 1, 0⟩ Element.hydrogen) 1e-6) 7 5
      (BoundingBox.cube (Orbital.bounding_radius ⟨2, 1, 0⟩ Element.hydrogen))
      () []).2.1
    (expansion_loop midSource Element.hydrogen ⟨2, 1, 0⟩
      (max (Orbital.max_density ⟨2, 1, 0⟩ Element.hydrogen) 1e-6) 7 5
      (BoundingBox.cube (Orbital.bounding_radius ⟨2, 1, 0⟩ Element.hydrogen))
      () []).2.2
    rfl
  exact ⟨h.2.2.2.2.2.2, h.1⟩

/-! ### C4: ground-state fast path -/

lemma random_unit_vector_length {σ : Type} {rs : RandomSource σ}
    (hrs : rs.InRange) (s : σ) :
    ((random_unit_vector rs s).1).length = 1 := by
  unfold random_unit_vector
  dsimp only
  obtain ⟨hz1, hz2⟩ := hrs (-1) 1 s (by norm_num)
  set z := (rs.gen_range (-1) 1 s).1 with hzdef
  have hzz : z * z ≤ 1 := by nlinarith
  have hmax : max (1 - z * z) 0 = 1 - z * z :=
    max_eq_left (by linarith)
  set az := (rs.gen_range 0 (2 * Real.pi) (rs.gen_range (-1) 1 s).2).1
  have hr2 : Real.sqrt (max (1 - z * z) 0) * Real.sqrt (max (1 - z * z) 0)
      = 1 - z * z := by
    rw [Real.mul_self_sqrt (le_max_right _ _), hmax]
  have trig := Real.sin_sq_add_cos_sq az
  unfold Vec3.length Vec3.lengthSq
  dsimp only
  have hsq : Real.sqrt (max (1 - z * z) 0) * Real.cos az *
        (Real.sqrt (max (1 - z * z) 0) * Real.cos az) +
      Real.sqrt (max (1 - z * z) 0) * Real.sin az *
        (Real.sqrt (max (1 - z * z) 0) * Real.sin az) +
      z * z = 1 := by
    nlinarith [hr2, trig]
  rw [hsq, Real.sqrt_one]

lemma ground_s_samples_positions {σ : Type} {rs : RandomSource σ}
    (hrs : rs.InRange) (e : Element) (o : Orbital) (scale md : ℝ) :
    ∀ (k : ℕ) (s : σ), ∀ x ∈ (ground_s_samples rs e o scale md k s).1,
      ∃ t : σ,
        x.position = Vec3.smul (rs.gamma_sample 3 scale t).1
          (random_unit_vector rs (rs.gamma_sample 3 scale t).2).1 ∧
        ((random_unit_vector rs (rs.gamma_sample 3 scale t).2).1).length = 1 := by
  intro k
  induction k with
  | zero => intro s x hx; cases hx
  | succ k ih =>
    intro s x hx
    simp only [ground_s_samples, List.mem_cons] at hx
    rcases hx with hx | hx
    · subst hx
      exact ⟨s, rfl, random_unit_vector_length hrs _⟩
    · exact ih _ x hx

/-- C4: the direct (gamma) path is taken exactly when the orbital is
`(1, 0, 0)` and the gamma scale (half the effective Bohr radius) is
positive (finiteness is automatic over `ℝ`); when it is not taken and the
sample count is nonzero, `sample_orbital` falls through to rejection
sampling; and every fast-path sample is a gamma(3, a/2) radius times a
unit direction drawn by `random_unit_vector`. -/
theorem C4_fast_path {σ : Type} (rs : RandomSource σ) (hrs : rs.InRange)
    (s : σ) (element : Element) (orbital : Orbital) (config : SampleConfig) :
    ((try_sample_ground_s_orbital rs s element orbital config).isSome ↔
      (orbital.n = 1 ∧ orbital.l = 0 ∧ orbital.m = 0) ∧
        0 < effective_bohr_radius element / 2) ∧
    (try_sample_ground_s_orbital rs s element orbital config = none →
      config.samples ≠ 0 →
      sample_orbital rs s element orbital config =
        sample_orbital_rejection rs s element orbital config) ∧
    (∀ res : List CloudSample × σ,
      try_sample_ground_s_orbital rs s element orbital config = some res →
      ∀ x ∈ res.1, ∃ t : σ,
        x.position = Vec3.smul
          (rs.gamma_sample 3 (effective_bohr_radius element / 2) t).1
          (random_unit_vector rs
            (rs.gamma_sample 3 (effective_bohr_radius element / 2) t).2).1 ∧
        ((random_unit_vector rs
          (rs.gamma_sample 3 (effective_bohr_radius element / 2) t).2).1).length
          = 1) := by
  refine ⟨?_, ?_, ?_⟩
  · unfold try_sample_ground_s_orbital
    split
    · rename_i hcond
      simp only [Option.isSome_none, Bool.false_eq_true, false_iff]
      intro ⟨h1, _⟩
      exact hcond h1
    · rename_i hcond
      dsimp only
      split
      · rename_i hscale
        simp only [Option.isSome_none, Bool.false_eq_true, false_iff]
        intro ⟨_, h2⟩
        exact absurd h2 (by linarith)
      · rename_i hscale
        simp only [Option.isSome_some, true_iff]
        exact ⟨not_not.mp hcond, lt_of_not_le hscale⟩
  · intro hnone hne
    unfold sample_orbital
    rw [if_neg hne, hnone]
  · intro res h
    unfold try_sample_ground_s_orbital at h
    split at h
    · cases h
    · dsimp only at h
      split at h
      · cases h
      · injection h with h'
        rw [← h']
        exact ground_s_samples_positions hrs element orbital _ _
          config.samples s

/-- Witness for C4 at a concrete source and inputs: the fast path is taken
for the ground state of hydrogen, and a non-ground orbital with a nonzero
count falls through to rejection. -/
theorem C4_witness :
    (try_sample_ground_s_orbital midSource () Element.hydrogen
      Orbital.ground_state (SampleConfig.new 2)).isSome ∧
    sample_orbital midSource () Element.hydrogen ⟨2, 1, 0⟩
        (SampleConfig.new 2) =
      sample_orbital_rejection midSource () Element.hydrogen ⟨2, 1, 0⟩
        (SampleConfig.new 2) := by
  constructor
  · refine (C4_fast_path midSource midSource_in_range () Element.hydrogen
      Orbital.ground_state (SampleConfig.new 2)).1.mpr ⟨⟨rfl, rfl, rfl⟩, ?_⟩
    unfold effective_bohr_radius A0 Element.hydrogen Element.new
    norm_num
  · refine (C4_fast_path midSource midSource_in_range () Element.hydrogen
      ⟨2, 1, 0⟩ (SampleConfig.new 2)).2.1 ?_ (by norm_num [SampleConfig.new])
    unfold try_sample_ground_s_orbital
    rw [if_pos]
    intro ⟨h1, _⟩
    exact absurd h1 (by norm_num)

/-! ### Density evaluation lemmas -/

lemma A0_pos : (0 : ℝ) < A0 := by unfold A0; norm_num

lemma effective_bohr_radius_pos (e : Element) :
    0 < effective_bohr_radius e := by
  unfold effective_bohr_radius
  exact div_pos A0_pos (lt_of_lt_of_le one_pos (le_max_right _ _))

lemma lengthSq_nonneg (v : Vec3) : 0 ≤ v.lengthSq := by
  unfold Vec3.lengthSq
  nlinarith [mul_self_nonneg v.x, mul_self_nonneg v.y, mul_self_nonneg v.z]

lemma length_nonneg (v : Vec3) : 0 ≤ v.length := Real.sqrt_nonneg _

lemma length_zero_vec : (Vec3.mk 0 0 0).length = 0 := by
  simp [Vec3.length, Vec3.lengthSq]

lemma probability_density_one_s (e : Element) (pos : Vec3) :
    Orbital.probability_density ⟨1, 0, 0⟩ e pos =
      1 / (Real.pi * (effective_bohr_radius e) ^ 3) *
        Real.exp (-2 * pos.length / effective_bohr_radius e) := by
  simp [Orbital.probability_density]

lemma probability_density_two_s (e : Element) (pos : Vec3) :
    Orbital.probability_density ⟨2, 0, 0⟩ e pos =
      1 / (32 * Real.pi * (effective_bohr_radius e) ^ 3) *
        Real.exp (-pos.length / effective_bohr_radius e) *
        (2 - pos.length / effective_bohr_radius e) ^ 2 := by
  simp [Orbital.probability_density]

lemma probability_density_other (e : Element) (o : Orbital) (pos : Vec3)
    (h1 : ¬(o.n = 1 ∧ o.l = 0 ∧ o.m = 0))
    (h2 : ¬(o.n = 2 ∧ o.l = 0 ∧ o.m = 0)) :
    o.probability_density e pos =
      radial_gaussian pos (o.bounding_radius e / 3) := by
  unfold Orbital.probability_density
  rw [if_neg h1, if_neg h2]

lemma max_density_one_s (e : Element) :
    Orbital.max_density ⟨1, 0, 0⟩ e =
      1 / (Real.pi * (effective_bohr_radius e) ^ 3) := by
  simp [Orbital.max_density]

lemma max_density_two_s (e : Element) :
    Orbital.max_density ⟨2, 0, 0⟩ e =
      1 / (32 * Real.pi * (effective_bohr_radius e) ^ 3) := by
  simp [Orbital.max_density]

lemma max_density_other (e : Element) (o : Orbital)
    (h1 : ¬(o.n = 1 ∧ o.l = 0)) (h2 : ¬(o.n = 2 ∧ o.l = 0)) :
    o.max_density e = 1 := by
  unfold Orbital.max_density
  rw [if_neg h1, if_neg h2]

lemma max_density_pos (o : Orbital) (e : Element) : 0 < o.max_density e := by
  unfold Orbital.max_density
  have ha := effective_bohr_radius_pos e
  dsimp only
  split
  · have := Real.pi_pos
    positivity
  · split
    · have := Real.pi_pos
      positivity
    · norm_num

lemma valid_not_ground_n (o : Orbital) (hv : o.Valid) (h1 : o ≠ ⟨1, 0, 0⟩) :
    2 ≤ o.n := by
  obtain ⟨hn, hl, hm⟩ := hv
  by_contra hcon
  have hn1 : o.n = 1 := by omega
  have hl0 : o.l = 0 := by omega
  have hm0 : o.m = 0 := by
    rw [hl0] at hm
    exact Int.natAbs_eq_zero.mp (Nat.le_zero.mp hm)
  cases o with
  | mk n l m =>
    simp only at hn1 hl0 hm0
    subst hn1; subst hl0; subst hm0
    exact h1 rfl

lemma valid_cond_one (o : Orbital) (hv : o.Valid) (h1 : o ≠ ⟨1, 0, 0⟩) :
    ¬(o.n = 1 ∧ o.l = 0) := by
  intro ⟨ha, _⟩
  have := valid_not_ground_n o hv h1
  omega

lemma valid_cond_two (o : Orbital) (hv : o.Valid) (h2 : o ≠ ⟨2, 0, 0⟩) :
    ¬(o.n = 2 ∧ o.l = 0) := by
  intro ⟨ha, hb⟩
  obtain ⟨hn, hl, hm⟩ := hv
  have hm0 : o.m = 0 := by
    rw [hb] at hm
    exact Int.natAbs_eq_zero.mp (Nat.le_zero.mp hm)
  cases o with
  | mk n l m =>
    simp only at ha hb hm0
    subst ha; subst hb; subst hm0
    exact h2 rfl

lemma not_cond_of_ne_one (o : Orbital) (h : o ≠ ⟨1, 0, 0⟩) :
    ¬(o.n = 1 ∧ o.l = 0 ∧ o.m = 0) := by
  intro ⟨ha, hb, hc⟩
  cases o with
  | mk n l m =>
    simp only at ha hb hc
    subst ha; subst hb; subst hc
    exact h rfl

lemma not_cond_of_ne_two (o : Orbital) (h : o ≠ ⟨2, 0, 0⟩) :
    ¬(o.n = 2 ∧ o.l = 0 ∧ o.m = 0) := by
  intro ⟨ha, hb, hc⟩
  cases o with
  | mk n l m =>
    simp only at ha hb hc
    subst ha; subst hb; subst hc
    exact h rfl

lemma twoPi_rpow :
    (2 * Real.pi) ^ (1.5 : ℝ) = 2 * Real.pi * Real.sqrt (2 * Real.pi) := by
  have h : (1.5 : ℝ) = 1 + 1 / 2 := by norm_num
  rw [h, Real.rpow_add (by positivity), Real.rpow_one, ← Real.sqrt_eq_rpow]

lemma sqrt_two_pi_ge : (2.5 : ℝ) ≤ Real.sqrt (2 * Real.pi) := by
  rw [show (2.5 : ℝ) = Real.sqrt (2.5 ^ 2) from
    (Real.sqrt_sq (by norm_num)).symm]
  apply Real.sqrt_le_sqrt
  nlinarith [Real.pi_gt_d2]

lemma exp_neg_mul_sq_le (t : ℝ) (ht : 0 ≤ t) :
    Real.exp (-t) * (2 - t) ^ 2 ≤ 4 := by
  have h1 : t / 2 + 1 ≤ Real.exp (t / 2) := Real.add_one_le_exp _
  have h2 : Real.exp (t / 2) * Real.exp (t / 2) = Real.exp t := by
    rw [← Real.exp_add]; ring_nf
  have hpos := Real.exp_pos t
  have h3 : (2 - t) ^ 2 ≤ 4 * Real.exp t := by
    nlinarith [Real.exp_pos (t / 2)]
  have h4 : Real.exp (-t) * (2 - t) ^ 2 ≤ Real.exp (-t) * (4 * Real.exp t) :=
    mul_le_mul_of_nonneg_left h3 (Real.exp_nonneg _)
  have h5 : Real.exp (-t) * (4 * Real.exp t) = 4 := by
    rw [Real.exp_neg]
    field_simp
  linarith

lemma radial_gaussian_le_one (pos : Vec3) (sg : ℝ) (hsg : 0.7 ≤ sg) :
    radial_gaussian pos sg ≤ 1 := by
  unfold radial_gaussian
  dsimp only
  have hsg0 : (0 : ℝ) < sg := by linarith
  have hden : 0 < (2 * Real.pi) ^ (1.5 : ℝ) * sg ^ 3 :=
    mul_pos (Real.rpow_pos_of_pos (by positivity) _) (pow_pos hsg0 3)
  have hexp : Real.exp (-0.5 * pos.lengthSq / (sg * sg)) ≤ 1 := by
    rw [Real.exp_le_one_iff]
    have h1 := lengthSq_nonneg pos
    have h2 : (0 : ℝ) < sg * sg := by positivity
    have h3 : -0.5 * pos.lengthSq / (sg * sg) =
        -(0.5 * pos.lengthSq / (sg * sg)) := by ring
    rw [h3]
    exact neg_nonpos.mpr (div_nonneg (by linarith) h2.le)
  have hnorm : 1 / ((2 * Real.pi) ^ (1.5 : ℝ) * sg ^ 3) ≤ 1 := by
    rw [div_le_one hden, twoPi_rpow]
    have hcube : (0.7 : ℝ) ^ 3 ≤ sg ^ 3 :=
      pow_le_pow_left₀ (by norm_num) hsg 3
    have h15 : (15 : ℝ) ≤ 2 * Real.pi * Real.sqrt (2 * Real.pi) := by
      nlinarith [Real.pi_gt_d2, sqrt_two_pi_ge, Real.sqrt_nonneg (2 * Real.pi)]
    have hmul : (15 : ℝ) * (0.7 ^ 3) ≤
        2 * Real.pi * Real.sqrt (2 * Real.pi) * sg ^ 3 :=
      mul_le_mul h15 hcube (by norm_num) (by linarith)
    nlinarith [hmul]
  calc 1 / ((2 * Real.pi) ^ (1.5 : ℝ) * sg ^ 3) *
        Real.exp (-0.5 * pos.lengthSq / (sg * sg))
      ≤ 1 / ((2 * Real.pi) ^ (1.5 : ℝ) * sg ^ 3) * 1 :=
        mul_le_mul_of_nonneg_left hexp (div_nonneg zero_le_one hden.le)
    _ = 1 / ((2 * Real.pi) ^ (1.5 : ℝ) * sg ^ 3) := mul_one _
    _ ≤ 1 := hnorm

lemma sigma_lower (e : Element) (o : Orbital) (hz : e.atomic_number ≤ 2)
    (hn : 2 ≤ o.n) : 0.7 ≤ o.bounding_radius e / 3 := by
  have ha : A0 / 2 ≤ effective_bohr_radius e := by
    unfold effective_bohr_radius
    have hmax : max ((e.atomic_number : ℝ)) 1 ≤ 2 :=
      max_le (by exact_mod_cast hz) (by norm_num)
    have hmax0 : (0 : ℝ) < max ((e.atomic_number : ℝ)) 1 :=
      lt_of_lt_of_le one_pos (le_max_right _ _)
    exact div_le_div_of_nonneg_left A0_pos.le hmax0 hmax
  have ha' : (0.2645 : ℝ) ≤ effective_bohr_radius e := by
    unfold A0 at ha
    linarith
  unfold Orbital.bounding_radius
  dsimp only
  split
  · rename_i h1
    omega
  · split
    · linarith
    · rename_i h1 h2
      have hn3 : 3 ≤ o.n := by omega
      have hcast : (3 : ℝ) ≤ (o.n : ℝ) := by exact_mod_cast hn3
      nlinarith [effective_bohr_radius_pos e]

/-! ### C3: max_density bounds -/

/-- Counterexample to C3 as stated: for the 2s state of hydrogen the
density at the origin is four times `max_density`, so `max_density` is
neither an upper bound nor the supremum there. -/
theorem C3_counterexample :
    Orbital.max_density ⟨2, 0, 0⟩ Element.hydrogen <
      Orbital.probability_density ⟨2, 0, 0⟩ Element.hydrogen ⟨0, 0, 0⟩ := by
  rw [max_density_two_s, probability_density_two_s, length_zero_vec]
  have ha := effective_bohr_radius_pos Element.hydrogen
  have hX : 0 < 32 * Real.pi * (effective_bohr_radius Element.hydrogen) ^ 3 :=
    mul_pos (by positivity) (pow_pos ha 3)
  have h0 : (0 : ℝ) <
      1 / (32 * Real.pi * (effective_bohr_radius Element.hydrogen) ^ 3) :=
    div_pos one_pos hX
  rw [zero_div, neg_zero, zero_div, Real.exp_zero]
  nlinarith [h0]

/-- C3 (amended): `max_density` is always positive; for the 1s state it is
an exact upper bound attained at the origin; for the 2s state it is one
quarter of the density's maximum, which is attained at the origin, so it is
not an upper bound; for every other valid orbital it returns 1, which is an
upper bound on the Gaussian fallback density for the cataloged elements
(atomic number at most 2). -/
theorem C3_max_density_bound (e : Element) (o : Orbital) :
    0 < o.max_density e ∧
    (o = ⟨1, 0, 0⟩ →
      (∀ pos : Vec3, o.probability_density e pos ≤ o.max_density e) ∧
      o.probability_density e ⟨0, 0, 0⟩ = o.max_density e) ∧
    (o = ⟨2, 0, 0⟩ →
      (∀ pos : Vec3, o.probability_density e pos ≤ 4 * o.max_density e) ∧
      o.probability_density e ⟨0, 0, 0⟩ = 4 * o.max_density e) ∧
    (o.Valid → o ≠ ⟨1, 0, 0⟩ → o ≠ ⟨2, 0, 0⟩ →
      o.max_density e = 1 ∧
      (e.atomic_number ≤ 2 →
        ∀ pos : Vec3, o.probability_density e pos ≤ o.max_density e)) := by
  have ha := effective_bohr_radius_pos e
  refine ⟨max_density_pos o e, ?_, ?_, ?_⟩
  · rintro rfl
    constructor
    · intro pos
      rw [probability_density_one_s, max_density_one_s]
      have hc : (0 : ℝ) ≤ 1 / (Real.pi * effective_bohr_radius e ^ 3) := by
        have := Real.pi_pos
        positivity
      have hexp : Real.exp (-2 * pos.length / effective_bohr_radius e) ≤ 1 := by
        rw [Real.exp_le_one_iff]
        have hr := length_nonneg pos
        have harg : -2 * pos.length / effective_bohr_radius e =
            -(2 * pos.length / effective_bohr_radius e) := by ring
        rw [harg]
        exact neg_nonpos.mpr (div_nonneg (by linarith) ha.le)
      have h := mul_le_mul_of_nonneg_left hexp hc
      rw [mul_one] at h
      exact h
    · rw [probability_density_one_s, max_density_one_s, length_zero_vec]
      norm_num
  · rintro rfl
    constructor
    · intro pos
      rw [probability_density_two_s, max_density_two_s]
      have hr := length_nonneg pos
      have ht : 0 ≤ pos.length / effective_bohr_radius e :=
        div_nonneg hr ha.le
      have hkey := exp_neg_mul_sq_le (pos.length / effective_bohr_radius e) ht
      have hc : (0 : ℝ) ≤ 1 / (32 * Real.pi * effective_bohr_radius e ^ 3) := by
        have := Real.pi_pos
        positivity
      have harg : -pos.length / effective_bohr_radius e =
          -(pos.length / effective_bohr_radius e) := by ring
      rw [harg]
      nlinarith [mul_le_mul_of_nonneg_left hkey hc]
    · rw [probability_density_two_s, max_density_two_s, length_zero_vec]
      norm_num
      ring
  · intro hv h1 h2
    have hmd := max_density_other e o (valid_cond_one o hv h1)
      (valid_cond_two o hv h2)
    refine ⟨hmd, ?_⟩
    intro hz pos
    rw [hmd, probability_density_other e o pos (not_cond_of_ne_one o h1)
      (not_cond_of_ne_two o h2)]
    exact radial_gaussian_le_one pos _
      (sigma_lower e o hz (valid_not_ground_n o hv h1))

/-- Witness for C3 (amended) at a concrete valid non-1s/2s orbital of a
cataloged element. -/
theorem C3_witness :
    Orbital.max_density ⟨2, 1, 0⟩ Element.hydrogen = 1 ∧
    Orbital.probability_density ⟨2, 1, 0⟩ Element.hydrogen ⟨1, 0, 0⟩ ≤
      Orbital.max_density ⟨2, 1, 0⟩ Element.hydrogen := by
  have h := (C3_max_density_bound Element.hydrogen ⟨2, 1, 0⟩).2.2.2
    (by decide) (by decide) (by decide)
  refine ⟨h.1, ?_⟩
  have h2 := h.2 (by norm_num [Element.hydrogen, Element.new]) ⟨1, 0, 0⟩
  rw [h.1]
  rw [h.1] at h2
  exact h2

/-! ### C2: closed-form densities and normalized Gaussian fallback -/

lemma radial_gaussian_eq_spec (v : Vec3) (sg : ℝ) (hsg : 0 < sg) :
    radial_gaussian v sg = spec_gaussian_density sg v := by
  unfold radial_gaussian spec_gaussian_density
  dsimp only
  have hne := hsg.ne'
  have h2p : (0 : ℝ) ≤ 2 * Real.pi := by positivity
  have hsg2 : (0 : ℝ) ≤ sg ^ 2 := sq_nonneg sg
  have hexp : -0.5 * v.lengthSq / (sg * sg) = -v.lengthSq / (2 * sg ^ 2) := by
    field_simp
    ring
  rw [hexp]
  congr 1
  rw [show (1.5 : ℝ) = 3 / 2 by norm_num]
  rw [Real.mul_rpow h2p hsg2, neg_div, Real.rpow_neg h2p, Real.rpow_neg hsg2]
  have hsg32 : ((sg ^ 2 : ℝ)) ^ ((3 : ℝ) / 2) = sg ^ 3 := by
    rw [← Real.rpow_natCast sg 2, ← Real.rpow_mul hsg.le]
    rw [show ((2 : ℕ) : ℝ) * ((3 : ℝ) / 2) = ((3 : ℕ) : ℝ) by push_cast; ring]
    rw [Real.rpow_natCast]
  rw [hsg32]
  have hne1 : ((2 * Real.pi) ^ ((3 : ℝ) / 2)) ≠ 0 :=
    ne_of_gt (Real.rpow_pos_of_pos (by positivity) _)
  have hne2 : (sg ^ 3 : ℝ) ≠ 0 := ne_of_gt (pow_pos hsg 3)
  field_simp

lemma gauss1d (sg : ℝ) (hsg : 0 < sg) :
    (∫ t : ℝ, Real.exp (-(t ^ 2) / (2 * sg ^ 2))) =
      Real.sqrt (2 * Real.pi) * sg := by
  have heq : (fun t : ℝ => Real.exp (-(t ^ 2) / (2 * sg ^ 2))) =
      fun t : ℝ => Real.exp (-(1 / (2 * sg ^ 2)) * t ^ 2) := by
    funext t
    congr 1
    ring
  rw [heq, integral_gaussian]
  rw [show Real.pi / (1 / (2 * sg ^ 2)) = 2 * Real.pi * sg ^ 2 by
    field_simp; ring]
  rw [Real.sqrt_mul (by positivity) (sg ^ 2), Real.sqrt_sq hsg.le]

lemma spec_gaussian_integral (sg : ℝ) (hsg : 0 < sg) :
    (∫ x : ℝ, ∫ y : ℝ, ∫ z : ℝ, spec_gaussian_density sg ⟨x, y, z⟩) = 1 := by
  have hexpand : ∀ x y z : ℝ, spec_gaussian_density sg ⟨x, y, z⟩ =
      ((2 * Real.pi * sg ^ 2) ^ (-(3 : ℝ) / 2) *
        Real.exp (-(x ^ 2) / (2 * sg ^ 2)) *
        Real.exp (-(y ^ 2) / (2 * sg ^ 2))) *
        Real.exp (-(z ^ 2) / (2 * sg ^ 2)) := by
    intro x y z
    unfold spec_gaussian_density Vec3.lengthSq
    dsimp only
    rw [show -(x * x + y * y + z * z) / (2 * sg ^ 2) =
        -(x ^ 2) / (2 * sg ^ 2) +
          (-(y ^ 2) / (2 * sg ^ 2) + -(z ^ 2) / (2 * sg ^ 2)) by ring]
    rw [Real.exp_add, Real.exp_add]
    ring
  simp only [hexpand]
  have key : ∀ c : ℝ, (∫ t : ℝ, c * Real.exp (-(t ^ 2) / (2 * sg ^ 2))) =
      c * (Real.sqrt (2 * Real.pi) * sg) := by
    intro c
    rw [MeasureTheory.integral_mul_left, gauss1d sg hsg]
  simp only [key, MeasureTheory.integral_mul_right]
  have hS : (0 : ℝ) < Real.sqrt (2 * Real.pi) * sg :=
    mul_pos (Real.sqrt_pos.mpr (by positivity)) hsg
  have hbase : (2 * Real.pi * sg ^ 2 : ℝ) =
      (Real.sqrt (2 * Real.pi) * sg) ^ 2 := by
    rw [mul_pow, Real.sq_sqrt (by positivity : (0 : ℝ) ≤ 2 * Real.pi)]
  have hCoef : (2 * Real.pi * sg ^ 2 : ℝ) ^ (-(3 : ℝ) / 2) =
      ((Real.sqrt (2 * Real.pi) * sg) ^ 3)⁻¹ := by
    rw [hbase]
    rw [← Real.rpow_natCast (Real.sqrt (2 * Real.pi) * sg) 2,
      ← Real.rpow_mul hS.le]
    rw [show ((2 : ℕ) : ℝ) * (-(3 : ℝ) / 2) = -((3 : ℕ) : ℝ) by
      push_cast; ring]
    rw [Real.rpow_neg hS.le, Real.rpow_natCast]
  rw [hCoef]
  field_simp
  ring

/-- C2: the density agrees with the spec's closed 1s and 2s forms with
effective Bohr radius `a0 / max(Z, 1)`, and for every other valid orbital
with the radially symmetric Gaussian of standard deviation
`bounding_radius / 3`, which is normalized: its iterated integral over 3D
space is 1. -/
theorem C2_density_spec (e : Element) (o : Orbital) (pos : Vec3) :
    (o = ⟨1, 0, 0⟩ → o.probability_density e pos =
      spec_1s_density (A0 / max ((e.atomic_number : ℝ)) 1) pos.length) ∧
    (o = ⟨2, 0, 0⟩ → o.probability_density e pos =
      spec_2s_density (A0 / max ((e.atomic_number : ℝ)) 1) pos.length) ∧
    (o.Valid → o ≠ ⟨1, 0, 0⟩ → o ≠ ⟨2, 0, 0⟩ →
      o.probability_density e pos =
        spec_gaussian_density (o.bounding_radius e / 3) pos) ∧
    (∀ sg : ℝ, 0 < sg →
      (∫ x : ℝ, ∫ y : ℝ, ∫ z : ℝ, spec_gaussian_density sg ⟨x, y, z⟩) = 1) := by
  refine ⟨?_, ?_, ?_, fun sg h => spec_gaussian_integral sg h⟩
  · rintro rfl
    rw [probability_density_one_s]
    rfl
  · rintro rfl
    rw [probability_density_two_s]
    rfl
  · intro hv h1 h2
    rw [probability_density_other e o pos (not_cond_of_ne_one o h1)
      (not_cond_of_ne_two o h2)]
    have ha := effective_bohr_radius_pos e
    have hbr : 0 < o.bounding_radius e := by
      unfold Orbital.bounding_radius
      dsimp only
      split
      · linarith
      · split
        · linarith
        · have hcast : (1 : ℝ) ≤ (o.n : ℝ) := by exact_mod_cast hv.1
          nlinarith [sq_nonneg ((o.n : ℝ) - 1)]
    exact radial_gaussian_eq_spec pos _ (div_pos hbr (by norm_num))

/-- Witness for C2 at concrete inputs: the hydrogen 1s density at the
origin matches the spec form, and the unit-σ Gaussian integrates to 1. -/
theorem C2_witness :
    Orbital.probability_density ⟨1, 0, 0⟩ Element.hydrogen ⟨0, 0, 0⟩ =
      spec_1s_density (A0 / max ((Element.hydrogen.atomic_number : ℝ)) 1)
        (Vec3.length ⟨0, 0, 0⟩) ∧
    (∫ x : ℝ, ∫ y : ℝ, ∫ z : ℝ, spec_gaussian_density 1 ⟨x, y, z⟩) = 1 :=
  ⟨(C2_density_spec Element.hydrogen ⟨1, 0, 0⟩ ⟨0, 0, 0⟩).1 rfl,
   (C2_density_spec Element.hydrogen ⟨1, 0, 0⟩ ⟨0, 0, 0⟩).2.2.2 1 one_pos⟩

/-! ### C9: element catalog lookup -/

/-- C9: `by_atomic_number 1` is hydrogen with symbol "H",
`by_atomic_number 255` (and any uncataloged number) is `none`, the catalog
holds exactly the two entries hydrogen and helium, and lookup succeeds
exactly for atomic numbers 1 and 2. -/
theorem C9_element_catalog :
    Element.by_atomic_number 1 = some Element.hydrogen ∧
    Element.hydrogen.symbol = "H" ∧
    Element.by_atomic_number 255 = none ∧
    ELEMENTS = [Element.hydrogen, Element.helium] ∧
    ∀ z : ℕ, (Element.by_atomic_number z).isSome ↔ z = 1 ∨ z = 2 := by
  refine ⟨rfl, rfl, rfl, rfl, ?_⟩
  intro z
  by_cases h1 : z = 1
  · subst h1
    simp [Element.by_atomic_number, ELEMENTS, List.find?, Element.new]
  · by_cases h2 : z = 2
    · subst h2
      simp [Element.by_atomic_number, ELEMENTS, List.find?, Element.new]
    · have e1 : (1 == z) = false := beq_eq_false_iff_ne.mpr (Ne.symm h1)
      have e2 : (2 == z) = false := beq_eq_false_iff_ne.mpr (Ne.symm h2)
      simp [Element.by_atomic_number, ELEMENTS, List.find?, Element.new,
        e1, e2, h1, h2]

/-! ### C10: set_active_orbital frame conditions -/

/-- C10: `set_active_orbital` sets the active orbital and the orbital of
every electron, while leaving the element, the nucleus and the number of
electrons unchanged. -/
theorem C10_set_active_orbital (atom : Atom) (orbital : Orbital) :
    (atom.set_active_orbital orbital).active_orbital = orbital ∧
    (∀ e ∈ (atom.set_active_orbital orbital).electrons, e.orbital = orbital) ∧
    (atom.set_active_orbital orbital).element = atom.element ∧
    (atom.set_active_orbital orbital).nucleus = atom.nucleus ∧
    (atom.set_active_orbital orbital).electrons.length =
      atom.electrons.length := by
  refine ⟨rfl, ?_, rfl, rfl, ?_⟩
  · intro e he
    simp only [Atom.set_active_orbital, List.mem_map] at he
    obtain ⟨_, _, rfl⟩ := he
    rfl
  · simp [Atom.set_active_orbital]

/-- Witness for C10 at a concrete atom and orbital. -/
theorem C10_witness :
    (Electron.new ⟨2, 1, 0⟩).orbital = (⟨2, 1, 0⟩ : Orbital) := by
  refine (C10_set_active_orbital (Atom.new Element.hydrogen) ⟨2, 1, 0⟩).2.1
    (Electron.new ⟨2, 1, 0⟩) ?_
  simp [Atom.new, Atom.set_active_orbital, Element.hydrogen, Element.new]

/-! ### C8: orbital construction contract -/

/-- Counterexample to C8 as stated: in release builds (where
`debug_assert!` compiles to nothing) `Orbital::new(0, 1, 2)` silently
returns the invalid triple unchanged. -/
theorem C8_counterexample :
    Orbital.new_release 0 1 2 = (⟨0, 1, 2⟩ : Orbital) ∧
    ¬ (⟨0, 1, 2⟩ : Orbital).Valid := ⟨rfl, by decide⟩

/-- C8 (amended): in debug builds construction is fatal exactly on invalid
quantum numbers and otherwise stores the triple verbatim; in release builds
the checks compile out and the triple is always stored verbatim.  In neither
mode are the quantum numbers normalized. -/
theorem C8_orbital_contract :
    (∀ (n l : ℕ) (m : ℤ), (Orbital.new_debug n l m).isSome ↔
      1 ≤ n ∧ l < n ∧ m.natAbs ≤ l) ∧
    (∀ (n l : ℕ) (m : ℤ) (o : Orbital),
      Orbital.new_debug n l m = some o → o = ⟨n, l, m⟩) ∧
    (∀ (n l : ℕ) (m : ℤ), Orbital.new_release n l m = ⟨n, l, m⟩) := by
  refine ⟨?_, ?_, fun _ _ _ => rfl⟩
  · intro n l m
    unfold Orbital.new_debug
    split <;> simp [*]
  · intro n l m o h
    unfold Orbital.new_debug at h
    split at h <;> simp_all

/-- Witness for C8 at concrete quantum numbers. -/
theorem C8_witness :
    (Orbital.new_debug 2 1 0).isSome ∧ (⟨2, 1, 0⟩ : Orbital) = ⟨2, 1, 0⟩ :=
  ⟨(C8_orbital_contract.1 2 1 0).mpr (by decide),
   C8_orbital_contract.2.1 2 1 0 ⟨2, 1, 0⟩ (by decide)⟩

/-! ### C7: determinism for a fixed seed -/

/-- C7: two samplers constructed with the same seed produce the same sample
sequence for the same inputs.  In this embedding the generator state is
explicit and every draw is a pure function of it, which is exactly the
determinism the source obtains from seeding `ChaCha8Rng` with a fixed
constant. -/
theorem C7_seed_determinism {σ : Type} (rs : RandomSource σ) (seed : ℕ)
    (element : Element) (config : SampleConfig) (s1 s2 : σ)
    (h1 : s1 = MonteCarloSampler.with_seed rs seed)
    (h2 : s2 = MonteCarloSampler.with_seed rs seed) :
    sample_orbital rs s1 element Orbital.ground_state config =
      sample_orbital rs s2 element Orbital.ground_state config := by
  subst h1; subst h2; rfl

/-- Witness for C7 at a concrete source, seed and configuration. -/
theorem C7_witness :
    sample_orbital midSource (MonteCarloSampler.with_seed midSource 42)
        Element.hydrogen Orbital.ground_state (SampleConfig.new 3) =
      sample_orbital midSource (MonteCarloSampler.with_seed midSource 42)
        Element.hydrogen Orbital.ground_state (SampleConfig.new 3) :=
  C7_seed_determinism midSource 42 Element.hydrogen (SampleConfig.new 3)
    _ _ rfl rfl

end Wgpu
